import Mathlib

/-!
# Verification of the ExpressionEval core

A shallow embedding of the three-stage expression evaluator
(tokenizer -> shunting-yard parser -> RPN evaluator) found in
`src/common/src/tokenizer.cpp`, `src/common/src/parser.cpp` and
`src/common/src/RPNEvaluator.cpp`, together with theorems settling the
behavioural claims about it.

Modelling conventions:
* The C++ token class hierarchy (see `src/common/inc/ee/operator.hpp`) is
  flattened into one inductive type `Token`; the `is<Kind>` dynamic casts
  become boolean classification functions that follow the hierarchy
  (in particular `PostfixOperator` derives from `UnaryOperator`, so
  `Factorial` satisfies `isUnaryOperator`).
* `Integer::value_type` (boost arbitrary-precision `cpp_int`) is `Int`.
* `Real::value_type` (`double`) is modelled as `ℚ`.  Every claim treated
  here uses reals only to select a branch (is-real tests), never for
  floating-point arithmetic results, so the substitution is sound for
  these claims.  The transcendental host-library functions (`sin`, `pow`,
  ...) are outside the embedding; the evaluator model answers
  `realMathUnmodeled` there.  No claim reaches those branches.
* The named constants `Pi` and `E` (classes from `real.hpp`, a file not
  present under `src/`) are modelled from the spec as interned operand
  tokens; no claim evaluates them.
* `std::runtime_error` messages of the evaluator are modelled by the
  enumeration `EvalErr` (one constructor per distinct message);
  `std::bad_variant_access` raised by `std::get` on a wrong alternative
  is the constructor `EvalErr.badVariantAccess`.
-/

/-- The token kinds of the pipeline, one constructor per concrete C++ class.
The keyword tokens `True`/`False` are interned `Boolean` operands (the C++
classes `True`/`False` are `Boolean` subclasses holding `true`/`false`).
`Variable` carries its registry index: the tokenizer's `variables_m` map is
modelled as a list of names, a variable's identity being its position. -/
inductive Token where
  | Integer (v : Int)
  | Real (v : ℚ)
  | Boolean (b : Bool)
  | Variable (id : Nat)
  | Pi
  | E
  | Power
  | Assignment
  | Addition
  | Subtraction
  | Multiplication
  | Division
  | Modulus
  | Equality
  | Inequality
  | Less
  | LessEqual
  | Greater
  | GreaterEqual
  | And
  | Or
  | Xor
  | Nand
  | Nor
  | Xnor
  | Identity
  | Negation
  | Not
  | Factorial
  | Abs
  | Arccos
  | Arcsin
  | Arctan
  | Ceil
  | Cos
  | Exp
  | Floor
  | Lb
  | Ln
  | Log
  | Result
  | Sin
  | Sqrt
  | Tan
  | Arctan2
  | Max
  | Min
  | Pow
  | LeftParenthesis
  | RightParenthesis
  | ArgumentSeparator
deriving Repr

/-- `is<Operand>`: `Integer`, `Real`, `Boolean`, `Variable` and the interned
constants are the `Operand` subclasses. -/
def Token.isOperand : Token → Bool
  | .Integer _ | .Real _ | .Boolean _ | .Variable _ | .Pi | .E => true
  | _ => false

/-- `is<BinaryOperator>`: the `RAssocOperator` and `LAssocOperator` classes. -/
def Token.isBinaryOperator : Token → Bool
  | .Power | .Assignment
  | .Addition | .Subtraction | .Multiplication | .Division | .Modulus
  | .Equality | .Inequality | .Less | .LessEqual | .Greater | .GreaterEqual
  | .And | .Or | .Xor | .Nand | .Nor | .Xnor => true
  | _ => false

/-- `is<PostfixOperator>`: only `Factorial`. -/
def Token.isPostfixOperator : Token → Bool
  | .Factorial => true
  | _ => false

/-- `is<UnaryOperator>`: `Identity`, `Negation`, `Not`, and — because
`PostfixOperator` derives from `UnaryOperator` in `operator.hpp` —
`Factorial` as well. -/
def Token.isUnaryOperator : Token → Bool
  | .Identity | .Negation | .Not | .Factorial => true
  | _ => false

/-- `is<Operator>`: every `Operator` subclass. -/
def Token.isOperator (t : Token) : Bool :=
  t.isBinaryOperator || t.isUnaryOperator

/-- `is<OneArgFunction>`. -/
def Token.isOneArgFunction : Token → Bool
  | .Abs | .Arccos | .Arcsin | .Arctan | .Ceil | .Cos | .Exp | .Floor
  | .Lb | .Ln | .Log | .Result | .Sin | .Sqrt | .Tan => true
  | _ => false

/-- `is<TwoArgFunction>`. -/
def Token.isTwoArgFunction : Token → Bool
  | .Arctan2 | .Max | .Min | .Pow => true
  | _ => false

/-- `is<Function>`. -/
def Token.isFunction (t : Token) : Bool :=
  t.isOneArgFunction || t.isTwoArgFunction

/-- `is<Operation>`: `Operator` and `Function` derive from `Operation`; the
pseudo-operations (parentheses, argument separator) do not. -/
def Token.isOperation (t : Token) : Bool :=
  t.isOperator || t.isFunction

/-- `is<LeftParenthesis>`. -/
def Token.isLeftParenthesis : Token → Bool
  | .LeftParenthesis => true
  | _ => false

/-- `is<RightParenthesis>`. -/
def Token.isRightParenthesis : Token → Bool
  | .RightParenthesis => true
  | _ => false

/-- `is<ArgumentSeparator>`. -/
def Token.isArgumentSeparator : Token → Bool
  | .ArgumentSeparator => true
  | _ => false

/-- `is<Assignment>`. -/
def Token.isAssignment : Token → Bool
  | .Assignment => true
  | _ => false

/-- The value variant of the evaluator:
`std::variant<Integer::value_type, Real::value_type, bool>`
(RPNEvaluator.cpp:54). -/
inductive Value where
  | int (v : Int)
  | real (v : ℚ)
  | bool (b : Bool)
deriving DecidableEq, Repr

/-- `std::holds_alternative<Real::value_type>`. -/
def Value.isReal : Value → Bool
  | .real _ => true
  | _ => false

/-- Failure modes of `RPNEvaluator::evaluate`.  Each constructor save the
last two corresponds to one `std::runtime_error` message:
`insufficientOperands` = "Error: insufficient operands",
`tooManyOperands` = "Error: too many operands",
`unsupportedOperand` = "Error: unsupported operand",
`variableNotInitialized` = "Error: variable not initialized",
`assignmentToNonVariable` = "Error: assignment to a non-variable.".
`badVariantAccess` models the `std::bad_variant_access` exception raised by
`std::get` on a variant holding a different alternative.
`realMathUnmodeled` marks the embedding boundary: branches whose result
comes from the host floating-point math library (`sin`, `pow`, ...), which
no claim exercises. -/
inductive EvalErr where
  | insufficientOperands
  | tooManyOperands
  | unsupportedOperand
  | variableNotInitialized
  | assignmentToNonVariable
  | badVariantAccess
  | realMathUnmodeled
deriving DecidableEq, Repr

/-- The variable slots.  In the C++ source each `Variable` token owns a
mutable slot (`Variable::set` / `Variable::value`); here the slots of all
registered variables are collected in one list indexed by the variable's
registry index, threaded through evaluation. -/
abbrev VarStore : Type := List (Option Value)

/-- Read a variable's slot (`Variable::value()`); `none` is an empty slot. -/
def getSlot (store : VarStore) (id : Nat) : Option Value :=
  match store.get? id with
  | some s => s
  | none => none

/-- Write a variable's slot (`Variable::set`). -/
def setSlot (store : VarStore) (id : Nat) (v : Value) : VarStore :=
  store.set id (some v)

/-- Mirrors the evaluator's `to_value` lambda (RPNEvaluator.cpp:56-67).  In
the source a variable's slot stores an operand token on which `to_value`
recurses; since a slot only ever receives operands materialized by
`make_operand_from_value` (never another `Variable` — spec §3 invariant),
the slot holds the value directly and the recursion collapses to a lookup.
The final catch-all is the `throw runtime_error("Error: unsupported
operand")` fallback. -/
def to_value (store : VarStore) : Token → Except EvalErr Value
  | .Integer v => .ok (.int v)
  | .Real v => .ok (.real v)
  | .Boolean b => .ok (.bool b)
  | .Variable id =>
      match getSlot store id with
      | none => .error .variableNotInitialized
      | some v => .ok v
  | _ => .error .unsupportedOperand

/-- `make_operand_from_value` (RPNEvaluator.cpp:69-75). -/
def make_operand_from_value : Value → Token
  | .int v => .Integer v
  | .real v => .Real v
  | .bool b => .Boolean b

/-- `std::get<Integer::value_type>`: throws `bad_variant_access` unless the
variant holds an integer. -/
def getInt : Value → Except EvalErr Int
  | .int v => .ok v
  | _ => .error .badVariantAccess

/-- `std::get<Real::value_type>`. -/
def getRealV : Value → Except EvalErr ℚ
  | .real v => .ok v
  | _ => .error .badVariantAccess

/-- `std::get<bool>`. -/
def getBool : Value → Except EvalErr Bool
  | .bool b => .ok b
  | _ => .error .badVariantAccess

/-- The `to_real` lambda inside `promote` (RPNEvaluator.cpp:79-83):
a bool converts to `1.0` / `0.0`. -/
def toRealQ : Value → ℚ
  | .real v => v
  | .int v => (v : ℚ)
  | .bool b => if b then 1 else 0

/-- `promote` (RPNEvaluator.cpp:77-87): if either side is real, lift both
to real, otherwise leave both untouched. -/
def promote (lhs rhs : Value) : Value × Value :=
  if lhs.isReal || rhs.isReal then (.real (toRealQ lhs), .real (toRealQ rhs))
  else (lhs, rhs)

/-- The `get_real` lambda of the function branches (RPNEvaluator.cpp:262):
real passes through, otherwise `std::get<Integer>` (so a bool raises
`bad_variant_access`) converted to real. -/
def get_real (v : Value) : Except EvalErr ℚ :=
  if v.isReal then getRealV v
  else do
    let i ← getInt v
    pure ((i : ℚ))

/-- The repeated-multiplication loop of integer `Power`
(RPNEvaluator.cpp:211-213): `result = 1; for (i = 0; i < exp; ++i) result
*= base;` — the loop body runs `exp.toNat` times. -/
def powAcc (base : Int) : Nat → Int
  | 0 => 1
  | n + 1 => powAcc base n * base

/-- The factorial loop (RPNEvaluator.cpp:111-113): `result = 1;
for (i = 1; i <= ival; ++i) result *= i;`. -/
def mulUpTo : Nat → Int
  | 0 => 1
  | n + 1 => mulUpTo n * (n + 1)

/-- `operator==` of `std::variant`: false across alternatives, payload
equality within one. -/
def valueBeq : Value → Value → Bool
  | .int a, .int b => a == b
  | .real a, .real b => a == b
  | .bool a, .bool b => a == b
  | _, _ => false

/-- The non-assignment binary-operator dispatch of `RPNEvaluator::evaluate`
(RPNEvaluator.cpp:167-253).  Promotion happens first; the boolean operators
(`And` .. `Xnor`) then read the UNpromoted values with `std::get<bool>`,
and `&&` / `||` short-circuit: when the left operand decides the result the
right `std::get<bool>` is never executed. -/
def applyBinary (t : Token) (lhs rhs : Value) : Except EvalErr Value :=
  let (lProm, rProm) := promote lhs rhs
  match t with
  | .Addition =>
      if lProm.isReal then do
        let a ← getRealV lProm; let b ← getRealV rProm; pure (.real (a + b))
      else do
        let a ← getInt lProm; let b ← getInt rProm; pure (.int (a + b))
  | .Subtraction =>
      if lProm.isReal then do
        let a ← getRealV lProm; let b ← getRealV rProm; pure (.real (a - b))
      else do
        let a ← getInt lProm; let b ← getInt rProm; pure (.int (a - b))
  | .Multiplication =>
      if lProm.isReal then do
        let a ← getRealV lProm; let b ← getRealV rProm; pure (.real (a * b))
      else do
        let a ← getInt lProm; let b ← getInt rProm; pure (.int (a * b))
  | .Division =>
      if lProm.isReal then do
        let a ← getRealV lProm; let b ← getRealV rProm; pure (.real (a / b))
      else do
        let a ← getInt lProm; let b ← getInt rProm; pure (.int (a.tdiv b))
  | .Modulus => do
      let a ← getInt lProm; let b ← getInt rProm; pure (.int (a.tmod b))
  | .Power =>
      if lProm.isReal then do
        let a ← getRealV lProm; let b ← getRealV rProm
        let _ := a; let _ := b
        .error .realMathUnmodeled
      else do
        let base ← getInt lProm; let exp ← getInt rProm
        pure (.int (powAcc base exp.toNat))
  | .Equality => pure (.bool (valueBeq lProm rProm))
  | .Inequality => pure (.bool (!valueBeq lProm rProm))
  | .Less =>
      if lProm.isReal then do
        let a ← getRealV lProm; let b ← getRealV rProm; pure (.bool (a < b))
      else do
        let a ← getInt lProm; let b ← getInt rProm; pure (.bool (a < b))
  | .LessEqual =>
      if lProm.isReal then do
        let a ← getRealV lProm; let b ← getRealV rProm; pure (.bool (a ≤ b))
      else do
        let a ← getInt lProm; let b ← getInt rProm; pure (.bool (a ≤ b))
  | .Greater =>
      if lProm.isReal then do
        let a ← getRealV lProm; let b ← getRealV rProm; pure (.bool (a > b))
      else do
        let a ← getInt lProm; let b ← getInt rProm; pure (.bool (a > b))
  | .GreaterEqual =>
      if lProm.isReal then do
        let a ← getRealV lProm; let b ← getRealV rProm; pure (.bool (a ≥ b))
      else do
        let a ← getInt lProm; let b ← getInt rProm; pure (.bool (a ≥ b))
  | .And => do
      let a ← getBool lhs
      if a then do
        let b ← getBool rhs; pure (.bool b)
      else pure (.bool false)
  | .Or => do
      let a ← getBool lhs
      if a then pure (.bool true)
      else do
        let b ← getBool rhs; pure (.bool b)
  | .Xor => do
      let a ← getBool lhs; let b ← getBool rhs; pure (.bool (xor a b))
  | .Nand => do
      let a ← getBool lhs
      if a then do
        let b ← getBool rhs; pure (.bool (!b))
      else pure (.bool true)
  | .Nor => do
      let a ← getBool lhs
      if a then pure (.bool false)
      else do
        let b ← getBool rhs; pure (.bool (!b))
  | .Xnor => do
      let a ← getBool lhs; let b ← getBool rhs; pure (.bool (a == b))
  | _ => .error .unsupportedOperand

/-- The one-argument-function dispatch (RPNEvaluator.cpp:257-284).  `Abs`,
`Floor`, `Ceil` and the `Result` rejection are modelled in full; the
branches whose result comes from the host floating-point library stop at
`realMathUnmodeled` after performing the same `get_real` extraction (and
hence the same `bad_variant_access` behaviour) as the source. -/
def applyOneArg (t : Token) (v : Value) : Except EvalErr Value :=
  match t with
  | .Abs =>
      if v.isReal then do
        let a ← getRealV v; pure (.real |a|)
      else do
        let a ← getInt v; pure (.int |a|)
  | .Floor => do
      let a ← get_real v; pure (.real ((⌊a⌋ : Int) : ℚ))
  | .Ceil => do
      let a ← get_real v; pure (.real ((⌈a⌉ : Int) : ℚ))
  | .Result => .error .unsupportedOperand
  | .Sin | .Cos | .Tan | .Sqrt | .Ln | .Lb | .Log | .Exp
  | .Arccos | .Arcsin | .Arctan => do
      let _ ← get_real v
      .error .realMathUnmodeled
  | _ => .error .unsupportedOperand

/-- The two-argument-function dispatch (RPNEvaluator.cpp:287-299).  `Max`
and `Min` are total on the rational model; `Arctan2` and `Pow` stop at the
embedding boundary after the same `get_real` extractions as the source. -/
def applyTwoArg (t : Token) (lhs rhs : Value) : Except EvalErr Value :=
  match t with
  | .Max => do
      let a ← get_real lhs; let b ← get_real rhs; pure (.real (max a b))
  | .Min => do
      let a ← get_real lhs; let b ← get_real rhs; pure (.real (min a b))
  | .Arctan2 | .Pow => do
      let _ ← get_real lhs; let _ ← get_real rhs
      .error .realMathUnmodeled
  | _ => .error .unsupportedOperand

/-- The token loop of `RPNEvaluator::evaluate` (RPNEvaluator.cpp:91-302).
The operand stack is a list with its top at the head (`push_back` = cons,
`back` = head).  Branch order follows the source: operand push; skip of
non-`Operation` tokens; postfix; unary (the operand is popped and
dereferenced BEFORE dispatching on the operator — the catch-all arm is the
C++ fall-through that would leave the operand popped and push nothing);
binary (both operands dereferenced, right then left, BEFORE the
`Assignment` test); functions. -/
def evalLoop : List Token → List Token → VarStore →
    Except EvalErr (List Token × VarStore)
  | [], stack, store => .ok (stack, store)
  | t :: ts, stack, store =>
    if t.isOperand then evalLoop ts (t :: stack) store
    else if !t.isOperation then evalLoop ts stack store
    else if t.isPostfixOperator then
      match stack with
      | [] => .error .insufficientOperands
      | op :: rest =>
        match to_value store op with
        | .error e => .error e
        | .ok v =>
          match v with
          | .int n =>
              if n < 0 then .error .unsupportedOperand
              else evalLoop ts (.Integer (mulUpTo n.toNat) :: rest) store
          | _ => .error .unsupportedOperand
    else if t.isUnaryOperator then
      match stack with
      | [] => .error .insufficientOperands
      | op :: rest =>
        match to_value store op with
        | .error e => .error e
        | .ok v =>
          match t with
          | .Identity => evalLoop ts (op :: rest) store
          | .Negation =>
              match v with
              | .real r => evalLoop ts (.Real (-r) :: rest) store
              | .int i => evalLoop ts (.Integer (-i) :: rest) store
              | .bool _ => .error .unsupportedOperand
          | .Not =>
              match v with
              | .bool b => evalLoop ts (.Boolean (!b) :: rest) store
              | _ => .error .unsupportedOperand
          | _ => evalLoop ts rest store
    else if t.isBinaryOperator then
      match stack with
      | rhsOp :: lhsOp :: rest =>
        match to_value store rhsOp with
        | .error e => .error e
        | .ok rhs =>
          match to_value store lhsOp with
          | .error e => .error e
          | .ok lhs =>
            if t.isAssignment then
              match lhsOp with
              | .Variable id =>
                  evalLoop ts (.Variable id :: rest) (setSlot store id rhs)
              | _ => .error .assignmentToNonVariable
            else
              match applyBinary t lhs rhs with
              | .error e => .error e
              | .ok v => evalLoop ts (make_operand_from_value v :: rest) store
      | _ => .error .insufficientOperands
    else if t.isOneArgFunction then
      match stack with
      | [] => .error .insufficientOperands
      | arg :: rest =>
        match to_value store arg with
        | .error e => .error e
        | .ok v =>
          match applyOneArg t v with
          | .error e => .error e
          | .ok r => evalLoop ts (make_operand_from_value r :: rest) store
    else if t.isTwoArgFunction then
      match stack with
      | rhsOp :: lhsOp :: rest =>
        match to_value store rhsOp with
        | .error e => .error e
        | .ok rhs =>
          match to_value store lhsOp with
          | .error e => .error e
          | .ok lhs =>
            match applyTwoArg t lhs rhs with
            | .error e => .error e
            | .ok r => evalLoop ts (make_operand_from_value r :: rest) store
      | _ => .error .insufficientOperands
    else evalLoop ts stack store

/-- `RPNEvaluator::evaluate` (RPNEvaluator.cpp:53-309): run the loop on an
empty stack, then demand exactly one remaining operand. -/
def evaluate (rpn : List Token) (store : VarStore) :
    Except EvalErr (Token × VarStore) :=
  match evalLoop rpn [] store with
  | .error e => .error e
  | .ok (stack, store') =>
    match stack with
    | [] => .error .insufficientOperands
    | [x] => .ok (x, store')
    | _ => .error .tooManyOperands

/-- Errors of `Parser::parse`, which throws `std::runtime_error`:
`rightParenMismatch` = "Right parenthesis has no matching left parenthesis",
`missingRightParen` = "Missing right-parenthesis". -/
inductive ParseErr where
  | rightParenMismatch
  | missingRightParen
deriving DecidableEq, Repr

/-- The `precedence` lambda of `Parser::parse` (parser.cpp:47-60). -/
def precedence : Token → Nat
  | .Factorial => 15
  | .Power => 14
  | .Identity | .Negation | .Not => 13
  | .Multiplication | .Division | .Modulus => 12
  | .Addition | .Subtraction => 11
  | .Less | .LessEqual | .Greater | .GreaterEqual => 9
  | .Equality | .Inequality => 8
  | .And | .Nand => 6
  | .Xor | .Xnor => 5
  | .Or | .Nor => 4
  | .Assignment => 1
  | _ => 0

/-- The `is_right_associative` lambda (parser.cpp:62-64). -/
def is_right_associative : Token → Bool
  | .Power | .Assignment => true
  | _ => false

/-- The `ArgumentSeparator` pop loop (parser.cpp:81-84): pop operators to
the output until the stack top is a left parenthesis (left in place) or the
stack empties.  The stack has its top at the head. -/
def popForSeparator : List Token → List Token → List Token × List Token
  | [], out => ([], out)
  | t :: rest, out =>
    if t.isLeftParenthesis then (t :: rest, out)
    else popForSeparator rest (out ++ [t])

/-- The `RightParenthesis` handling (parser.cpp:94-107): pop to the output
until a left parenthesis, fail if the stack empties first, discard the left
parenthesis, then pop a function if one sits beneath it. -/
def popForRightParen : List Token → List Token →
    Except ParseErr (List Token × List Token)
  | [], _ => .error .rightParenMismatch
  | t :: rest, out =>
    if t.isLeftParenthesis then
      match rest with
      | f :: r2 => if f.isFunction then .ok (r2, out ++ [f]) else .ok (rest, out)
      | [] => .ok (rest, out)
    else popForRightParen rest (out ++ [t])

/-- The operator pop loop (parser.cpp:112-122): while the stack top is an
operator `t` and `prec(t) > prec(o)`, or `prec(t) = prec(o)` and `o` is not
right-associative, pop `t` to the output. -/
def popOperators (o : Token) : List Token → List Token → List Token × List Token
  | [], out => ([], out)
  | t :: rest, out =>
    if t.isOperator = true ∧
        (precedence t > precedence o ∨
          (precedence t = precedence o ∧ is_right_associative o = false)) then
      popOperators o rest (out ++ [t])
    else (t :: rest, out)

/-- End-of-input drain (parser.cpp:128-133): a left parenthesis still on
the stack is a missing right parenthesis; otherwise pop to the output. -/
def drainStack : List Token → List Token → Except ParseErr (List Token)
  | [], out => .ok out
  | t :: rest, out =>
    if t.isLeftParenthesis then .error .missingRightParen
    else drainStack rest (out ++ [t])

/-- The token dispatch loop of `Parser::parse` (parser.cpp:69-126), branch
order as in the source; the final arm is the C++ fall-through for tokens
matching no classification. -/
def parseLoop : List Token → List Token → List Token →
    Except ParseErr (List Token)
  | [], opStack, out => drainStack opStack out
  | t :: ts, opStack, out =>
    if t.isOperand then parseLoop ts opStack (out ++ [t])
    else if t.isFunction then parseLoop ts (t :: opStack) out
    else if t.isArgumentSeparator then
      match popForSeparator opStack out with
      | (st, o) => parseLoop ts st o
    else if t.isLeftParenthesis then parseLoop ts (t :: opStack) out
    else if t.isRightParenthesis then
      match popForRightParen opStack out with
      | .error e => .error e
      | .ok (st, o) => parseLoop ts st o
    else if t.isOperator then
      match popOperators t opStack out with
      | (st, o) => parseLoop ts (t :: st) o
    else parseLoop ts opStack out

/-- `Parser::parse` (parser.cpp:46-136): empty operator stack, empty
output. -/
def parse (infixTokens : List Token) : Except ParseErr (List Token) :=
  parseLoop infixTokens [] []

/-- Tokenizer failures: `badCharacter` is the `XBadCharacter` exception
(offending offset), `tokenizerErr` is `XTokenizer` (offset and message).
`outOfFuel` is a pure termination device of the embedding: the lexing loop
below is driven by a fuel counter, and one unit of fuel is spent per
emitted token or skipped character, so fuel equal to the input length never
runs out (each iteration consumes at least one character). -/
inductive TokErr where
  | badCharacter (offset : Nat)
  | tokenizerErr (offset : Nat) (msg : String)
  | outOfFuel
deriving DecidableEq, Repr

/-- C `isspace` on the ASCII space class. -/
def isSpaceC (c : Char) : Bool :=
  c = ' ' || c = '\t' || c = '\n' || c = '\x0B' || c = '\x0C' || c = '\r'

/-- C `isdigit`. -/
def isDigitC (c : Char) : Bool :=
  '0' ≤ c && c ≤ '9'

/-- C `isalpha` (ASCII). -/
def isAlphaC (c : Char) : Bool :=
  ('a' ≤ c && c ≤ 'z') || ('A' ≤ c && c ≤ 'Z')

/-- C `isalnum` (ASCII). -/
def isAlnumC (c : Char) : Bool :=
  isAlphaC c || isDigitC c

/-- A binary digit, for the `0b` literal loop. -/
def isBitC (c : Char) : Bool :=
  c = '0' || c = '1'

/-- `Integer::value_type(digits)`: decimal string to integer. -/
def decToInt (ds : List Char) : Int :=
  ds.foldl (fun a c => a * 10 + ((c.toNat : Int) - 48)) 0

/-- `Real::value_type(digits)` for a literal `intPart.fracPart`, as an
exact rational. -/
def decToRat (intPart fracPart : List Char) : ℚ :=
  (decToInt intPart : ℚ) + (decToInt fracPart : ℚ) / (10 : ℚ) ^ fracPart.length

/-- The MSB-first accumulation of the `0b` literal loop
(tokenizer.cpp:223-229): `value <<= 1; if bit then value += 1`. -/
def bitsToInt (bs : List Char) : Int :=
  bs.foldl (fun a c => a * 2 + (if c = '1' then 1 else 0)) 0

/-- `Tokenizer::_get_number` (tokenizer.cpp:147-167).  `first` is the digit
the caller looked at, `cs` the characters after it, `pos` the offset of
`first`.  Returns the token, the unconsumed characters and the offset just
past the literal.  A `.` not followed by a digit raises `XTokenizer` with
the offset of the position after the `.`. -/
def getNumber (first : Char) (cs : List Char) (pos : Nat) :
    Except TokErr (Token × List Char × Nat) :=
  let ds := cs.takeWhile isDigitC
  let digits := first :: ds
  let rest := cs.dropWhile isDigitC
  let pos1 := pos + digits.length
  match rest with
  | [] => .ok (.Integer (decToInt digits), [], pos1)
  | c1 :: r1 =>
    if c1 = '.' then
      match r1 with
      | [] =>
          .error (.tokenizerErr (pos1 + 1) "Tokenizer::Bad character in expression.")
      | c2 :: _ =>
        if isDigitC c2 then
          let frac := r1.takeWhile isDigitC
          .ok (.Real (decToRat digits frac), r1.dropWhile isDigitC,
               pos1 + 1 + frac.length)
        else
          .error (.tokenizerErr (pos1 + 1) "Tokenizer::Bad character in expression.")
    else .ok (.Integer (decToInt digits), rest, pos1)

/-- The keyword dictionary loaded by the `Tokenizer` constructor
(tokenizer.cpp:76-108): every keyword in its lowercase, Capitalized and
UPPERCASE spellings (`e` and `pi` have the listed variants only), mapping
to the interned token. -/
def keywordList : List (String × Token) :=
  [("abs", Token.Abs), ("Abs", Token.Abs), ("ABS", Token.Abs),
   ("and", Token.And), ("And", Token.And), ("AND", Token.And),
   ("arccos", Token.Arccos), ("Arccos", Token.Arccos), ("ARCCOS", Token.Arccos),
   ("arcsin", Token.Arcsin), ("Arcsin", Token.Arcsin), ("ARCSIN", Token.Arcsin),
   ("arctan", Token.Arctan), ("Arctan", Token.Arctan), ("ARCTAN", Token.Arctan),
   ("arctan2", Token.Arctan2), ("Arctan2", Token.Arctan2), ("ARCTAN2", Token.Arctan2),
   ("ceil", Token.Ceil), ("Ceil", Token.Ceil), ("CEIL", Token.Ceil),
   ("cos", Token.Cos), ("Cos", Token.Cos), ("COS", Token.Cos),
   ("e", Token.E), ("E", Token.E),
   ("exp", Token.Exp), ("Exp", Token.Exp), ("EXP", Token.Exp),
   ("false", Token.Boolean false), ("False", Token.Boolean false), ("FALSE", Token.Boolean false),
   ("floor", Token.Floor), ("Floor", Token.Floor), ("FLOOR", Token.Floor),
   ("lb", Token.Lb), ("Lb", Token.Lb), ("LB", Token.Lb),
   ("ln", Token.Ln), ("Ln", Token.Ln), ("LN", Token.Ln),
   ("log", Token.Log), ("Log", Token.Log), ("LOG", Token.Log),
   ("max", Token.Max), ("Max", Token.Max), ("MAX", Token.Max),
   ("min", Token.Min), ("Min", Token.Min), ("MIN", Token.Min),
   ("mod", Token.Modulus), ("Mod", Token.Modulus), ("MOD", Token.Modulus),
   ("nand", Token.Nand), ("Nand", Token.Nand), ("NAND", Token.Nand),
   ("nor", Token.Nor), ("Nor", Token.Nor), ("NOR", Token.Nor),
   ("not", Token.Not), ("Not", Token.Not), ("NOT", Token.Not),
   ("or", Token.Or), ("Or", Token.Or), ("OR", Token.Or),
   ("pi", Token.Pi), ("Pi", Token.Pi), ("PI", Token.Pi),
   ("pow", Token.Pow), ("Pow", Token.Pow), ("POW", Token.Pow),
   ("result", Token.Result), ("Result", Token.Result), ("RESULT", Token.Result),
   ("sin", Token.Sin), ("Sin", Token.Sin), ("SIN", Token.Sin),
   ("sqrt", Token.Sqrt), ("Sqrt", Token.Sqrt), ("SQRT", Token.Sqrt),
   ("tan", Token.Tan), ("Tan", Token.Tan), ("TAN", Token.Tan),
   ("true", Token.Boolean true), ("True", Token.Boolean true), ("TRUE", Token.Boolean true),
   ("xnor", Token.Xnor), ("Xnor", Token.Xnor), ("XNOR", Token.Xnor),
   ("xor", Token.Xor), ("Xor", Token.Xor), ("XOR", Token.Xor)]

/-- `keywords_m.find(ident)`. -/
def keywordLookup (ident : String) : Option Token :=
  (keywordList.find? (fun p => p.1 == ident)).map (fun p => p.2)

/-- `Tokenizer::_get_identifier` (tokenizer.cpp:116-137): accumulate
alphanumerics, try the keyword dictionary, then the variable dictionary,
else register a fresh `Variable`.  Returns the token, the unconsumed
characters, the number of characters consumed and the updated variable
dictionary. -/
def getIdentifier (first : Char) (cs : List Char) (vars : List String) :
    Token × List Char × Nat × List String :=
  let tail := cs.takeWhile isAlnumC
  let ident := String.mk (first :: tail)
  let rest := cs.dropWhile isAlnumC
  let len := 1 + tail.length
  match keywordLookup ident with
  | some t => (t, rest, len, vars)
  | none =>
    match vars.findIdx? (fun s => s == ident) with
    | some i => (.Variable i, rest, len, vars)
    | none => (.Variable vars.length, rest, len, vars ++ [ident])

/-- The `expect_function_paren` lambda (tokenizer.cpp:198-203): look ahead
over whitespace; unless the next character is `(`, raise `XTokenizer`
"Function not followed by (" at the lookahead offset.  `pos` is the offset
of the first character of `cs`. -/
def expectFunParen (cs : List Char) (pos : Nat) : Except TokErr Unit :=
  let ws := cs.takeWhile isSpaceC
  match (cs.dropWhile isSpaceC).head? with
  | some '(' => .ok ()
  | _ => .error (.tokenizerErr (pos + ws.length) "Function not followed by (")

/-- The `PrevCategory` enumeration of `Tokenizer::tokenize`
(tokenizer.cpp:181). -/
inductive PrevCategory where
  | Start
  | Operand
  | RightParenthesis
  | PostfixOp
  | Function
  | Other
deriving DecidableEq, Repr

/-- The `classify_prev` lambda (tokenizer.cpp:182-194), minus the null case
(the loop below passes the initial `Start` explicitly). -/
def classify_prev (t : Token) : PrevCategory :=
  if t.isOperand then .Operand
  else if t.isRightParenthesis then .RightParenthesis
  else if t.isPostfixOperator then .PostfixOp
  else if t.isFunction then .Function
  else .Other

/-- The scanning loop of `Tokenizer::tokenize` (tokenizer.cpp:177-340).
Branch order follows the source exactly: whitespace, end of input, numbers
(with the `0b` binary-literal subcase), the two-character operators, the
one-character operators, `!`, `=`, `+`, `-`, identifiers, bad character.
Tokens are appended (`push_back`) to `acc`; `prev` is updated through
`classify_prev` on each emitted token.  The loop is driven by `fuel`
(see `TokErr.outOfFuel`); one unit is spent per iteration and every
iteration consumes at least one character, so `tokenize` below supplies
the input length as fuel and the `outOfFuel` arm is unreachable. -/
def tokLoop : Nat → List Char → Nat → PrevCategory → List String →
    List Token → Except TokErr (List Token × List String)
  | _, [], _, _, vars, acc => .ok (acc, vars)
  | 0, _ :: _, _, _, _, _ => .error .outOfFuel
  | fuel + 1, c :: cs, pos, prev, vars, acc =>
    if isSpaceC c then tokLoop fuel cs (pos + 1) prev vars acc
    else if isDigitC c then
      if c == '0' && (cs.head? == some 'b' || cs.head? == some 'B') then
        let bits := cs.tail.takeWhile isBitC
        if bits.isEmpty then
          .error (.tokenizerErr (pos + 2) "Tokenizer::Bad character in expression.")
        else
          tokLoop fuel (cs.tail.dropWhile isBitC) (pos + 2 + bits.length)
            .Operand vars (acc ++ [.Integer (bitsToInt bits)])
      else
        match getNumber c cs pos with
        | .error e => .error e
        | .ok (tok, rest, pos') =>
            tokLoop fuel rest pos' (classify_prev tok) vars (acc ++ [tok])
    else if c == '<' && cs.head? == some '=' then
      tokLoop fuel cs.tail (pos + 2) (classify_prev .LessEqual) vars
        (acc ++ [.LessEqual])
    else if c == '>' && cs.head? == some '=' then
      tokLoop fuel cs.tail (pos + 2) (classify_prev .GreaterEqual) vars
        (acc ++ [.GreaterEqual])
    else if c == '=' && cs.head? == some '=' then
      tokLoop fuel cs.tail (pos + 2) (classify_prev .Equality) vars
        (acc ++ [.Equality])
    else if c == '!' && cs.head? == some '=' then
      tokLoop fuel cs.tail (pos + 2) (classify_prev .Inequality) vars
        (acc ++ [.Inequality])
    else if c == '*' && cs.head? == some '*' then
      tokLoop fuel cs.tail (pos + 2) (classify_prev .Power) vars
        (acc ++ [.Power])
    else if c == '*' then
      tokLoop fuel cs (pos + 1) (classify_prev .Multiplication) vars
        (acc ++ [.Multiplication])
    else if c == '/' then
      tokLoop fuel cs (pos + 1) (classify_prev .Division) vars
        (acc ++ [.Division])
    else if c == '%' then
      tokLoop fuel cs (pos + 1) (classify_prev .Modulus) vars
        (acc ++ [.Modulus])
    else if c == '(' then
      tokLoop fuel cs (pos + 1) (classify_prev .LeftParenthesis) vars
        (acc ++ [.LeftParenthesis])
    else if c == ')' then
      tokLoop fuel cs (pos + 1) (classify_prev .RightParenthesis) vars
        (acc ++ [.RightParenthesis])
    else if c == ',' then
      tokLoop fuel cs (pos + 1) (classify_prev .ArgumentSeparator) vars
        (acc ++ [.ArgumentSeparator])
    else if c == '<' then
      tokLoop fuel cs (pos + 1) (classify_prev .Less) vars (acc ++ [.Less])
    else if c == '>' then
      tokLoop fuel cs (pos + 1) (classify_prev .Greater) vars (acc ++ [.Greater])
    else if c == '!' then
      if prev == .Operand || prev == .PostfixOp || prev == .RightParenthesis then
        tokLoop fuel cs (pos + 1) (classify_prev .Factorial) vars
          (acc ++ [.Factorial])
      else .error (.tokenizerErr pos "Factorial must follow Expression")
    else if c == '=' then
      tokLoop fuel cs (pos + 1) (classify_prev .Assignment) vars
        (acc ++ [.Assignment])
    else if c == '+' then
      let tkn := if prev == .Operand || prev == .PostfixOp ||
          prev == .RightParenthesis then Token.Addition else Token.Identity
      tokLoop fuel cs (pos + 1) (classify_prev tkn) vars (acc ++ [tkn])
    else if c == '-' then
      let tkn := if prev == .Operand || prev == .PostfixOp ||
          prev == .RightParenthesis then Token.Subtraction else Token.Negation
      tokLoop fuel cs (pos + 1) (classify_prev tkn) vars (acc ++ [tkn])
    else if isAlphaC c then
      match getIdentifier c cs vars with
      | (tok, rest, len, vars') =>
        if tok.isFunction then
          match expectFunParen rest (pos + len) with
          | .error e => .error e
          | .ok _ =>
              tokLoop fuel rest (pos + len) (classify_prev tok) vars'
                (acc ++ [tok])
        else
          tokLoop fuel rest (pos + len) (classify_prev tok) vars' (acc ++ [tok])
    else .error (.badCharacter pos)

/-- `Tokenizer::tokenize` (tokenizer.cpp:177-340): scan the whole string,
starting with previous category `Start` (tokenizer.cpp:196), threading the
variable dictionary `vars`. -/
def tokenize (s : String) (vars : List String) :
    Except TokErr (List Token × List String) :=
  tokLoop s.data.length s.data 0 .Start vars []

/-- Whether a tokenizer outcome is the `XBadCharacter` error kind. -/
def resultIsBadCharacter : Except TokErr (List Token × List String) → Bool
  | .error (.badCharacter _) => true
  | _ => false

/-- Invariant of the parser's operator stack: only operators, functions and
left parentheses are ever pushed. -/
def StackOkP (l : List Token) : Prop :=
  ∀ t ∈ l, t.isOperator = true ∨ t.isFunction = true ∨ t = Token.LeftParenthesis

/-- Invariant of the parser's output: only operands, operators and
functions are ever appended. -/
def OutOkP (l : List Token) : Prop :=
  ∀ t ∈ l, t.isOperand = true ∨ t.isOperator = true ∨ t.isFunction = true

/-!
## Helper lemmas
-/

/-- A token that `to_value` succeeds on is an operand. -/
theorem to_value_ok_isOperand {store : VarStore} {op : Token} {v : Value}
    (h : to_value store op = .ok v) : op.isOperand = true := by
  cases op <;> simp_all [to_value, Token.isOperand]

/-- The factorial loop computes the factorial. -/
theorem mulUpTo_eq_factorial (k : Nat) : mulUpTo k = (k.factorial : Int) := by
  induction k with
  | zero => simp [mulUpTo, Nat.factorial]
  | succ n ih =>
      simp [mulUpTo, ih, Nat.factorial_succ]
      ring

/-- The repeated-multiplication loop computes the power. -/
theorem powAcc_eq_pow (b : Int) (n : Nat) : powAcc b n = b ^ n := by
  induction n with
  | zero => simp [powAcc]
  | succ n ih => simp [powAcc, ih, pow_succ]

/-- A token classified operand, operator or function is not a
pseudo-token. -/
theorem not_pseudo_of_cat {t : Token}
    (h : t.isOperand = true ∨ t.isOperator = true ∨ t.isFunction = true) :
    t ≠ Token.LeftParenthesis ∧ t ≠ Token.RightParenthesis ∧
      t ≠ Token.ArgumentSeparator := by
  refine ⟨?_, ?_, ?_⟩ <;> rintro rfl <;>
    simp [Token.isOperand, Token.isOperator, Token.isFunction,
      Token.isBinaryOperator, Token.isUnaryOperator, Token.isOneArgFunction,
      Token.isTwoArgFunction] at h

/-- A token passing `isLeftParenthesis` is the left parenthesis. -/
theorem isLeftParenthesis_eq_true_iff {t : Token} :
    t.isLeftParenthesis = true ↔ t = Token.LeftParenthesis := by
  cases t <;> simp [Token.isLeftParenthesis]

/-- The argument-separator pop loop preserves both parser invariants. -/
theorem popForSeparator_inv (st : List Token) :
    ∀ (out : List Token), StackOkP st → OutOkP out →
      StackOkP (popForSeparator st out).1 ∧
        OutOkP (popForSeparator st out).2 := by
  induction st with
  | nil => intro out hst hout; simpa [popForSeparator] using ⟨hst, hout⟩
  | cons t rest ih =>
    intro out hst hout
    by_cases hL : t.isLeftParenthesis = true
    · simp only [popForSeparator, if_pos hL]
      exact ⟨hst, hout⟩
    · have hne : t ≠ Token.LeftParenthesis := fun he =>
        hL (isLeftParenthesis_eq_true_iff.mpr he)
      have ht := hst t (by simp)
      have htc : t.isOperator = true ∨ t.isFunction = true := by
        rcases ht with h | h | h
        · exact Or.inl h
        · exact Or.inr h
        · exact absurd h hne
      simp only [popForSeparator, if_neg hL]
      refine ih (out ++ [t]) (fun x hx => hst x (by simp [hx])) ?_
      intro x hx
      rcases List.mem_append.mp hx with h | h
      · exact hout x h
      · simp at h
        subst h
        rcases htc with h' | h'
        · exact Or.inr (Or.inl h')
        · exact Or.inr (Or.inr h')

/-- The right-parenthesis pop loop preserves both parser invariants. -/
theorem popForRightParen_inv (st : List Token) :
    ∀ (out st' out' : List Token), StackOkP st → OutOkP out →
      popForRightParen st out = .ok (st', out') →
      StackOkP st' ∧ OutOkP out' := by
  induction st with
  | nil => intro out st' out' _ _ h; simp [popForRightParen] at h
  | cons t rest ih =>
    intro out st' out' hst hout h
    by_cases hL : t.isLeftParenthesis = true
    · simp only [popForRightParen, if_pos hL] at h
      have hrest : StackOkP rest := fun x hx => hst x (by simp [hx])
      cases rest with
      | nil =>
        simp at h
        obtain ⟨h1, h2⟩ := h
        subst h1; subst h2
        exact ⟨hrest, hout⟩
      | cons f r2 =>
        by_cases hf : f.isFunction = true
        · simp [hf] at h
          obtain ⟨h1, h2⟩ := h
          subst h1; subst h2
          refine ⟨fun x hx => hrest x (by simp [hx]), ?_⟩
          intro x hx
          rcases List.mem_append.mp hx with hm | hm
          · exact hout x hm
          · simp at hm; subst hm
            exact Or.inr (Or.inr hf)
        · simp [hf] at h
          obtain ⟨h1, h2⟩ := h
          subst h1; subst h2
          exact ⟨hrest, hout⟩
    · have hne : t ≠ Token.LeftParenthesis := fun he =>
        hL (isLeftParenthesis_eq_true_iff.mpr he)
      have ht := hst t (by simp)
      have htc : t.isOperator = true ∨ t.isFunction = true := by
        rcases ht with h' | h' | h'
        · exact Or.inl h'
        · exact Or.inr h'
        · exact absurd h' hne
      simp only [popForRightParen, if_neg hL] at h
      refine ih (out ++ [t]) st' out' (fun x hx => hst x (by simp [hx])) ?_ h
      intro x hx
      rcases List.mem_append.mp hx with hm | hm
      · exact hout x hm
      · simp at hm; subst hm
        rcases htc with h' | h'
        · exact Or.inr (Or.inl h')
        · exact Or.inr (Or.inr h')

/-- The operator pop loop preserves both parser invariants. -/
theorem popOperators_inv (o : Token) (st : List Token) :
    ∀ (out : List Token), StackOkP st → OutOkP out →
      StackOkP (popOperators o st out).1 ∧ OutOkP (popOperators o st out).2 := by
  induction st with
  | nil => intro out hst hout; simpa [popOperators] using ⟨hst, hout⟩
  | cons t rest ih =>
    intro out hst hout
    by_cases hc : t.isOperator = true ∧
        (precedence t > precedence o ∨
          (precedence t = precedence o ∧ is_right_associative o = false))
    · simp only [popOperators, if_pos hc]
      refine ih (out ++ [t]) (fun x hx => hst x (by simp [hx])) ?_
      intro x hx
      rcases List.mem_append.mp hx with hm | hm
      · exact hout x hm
      · simp at hm; subst hm
        exact Or.inr (Or.inl hc.1)
    · simpa [popOperators, if_neg hc] using ⟨hst, hout⟩

/-- The end-of-input drain preserves the output invariant. -/
theorem drainStack_inv (st : List Token) :
    ∀ (out res : List Token), StackOkP st → OutOkP out →
      drainStack st out = .ok res → OutOkP res := by
  induction st with
  | nil => intro out res _ hout h; simp [drainStack] at h; subst h; exact hout
  | cons t rest ih =>
    intro out res hst hout h
    by_cases hL : t.isLeftParenthesis = true
    · simp only [drainStack, if_pos hL] at h
      simp at h
    · have hne : t ≠ Token.LeftParenthesis := fun he =>
        hL (isLeftParenthesis_eq_true_iff.mpr he)
      have ht := hst t (by simp)
      have htc : t.isOperator = true ∨ t.isFunction = true := by
        rcases ht with h' | h' | h'
        · exact Or.inl h'
        · exact Or.inr h'
        · exact absurd h' hne
      simp only [drainStack, if_neg hL] at h
      refine ih (out ++ [t]) res (fun x hx => hst x (by simp [hx])) ?_ h
      intro x hx
      rcases List.mem_append.mp hx with hm | hm
      · exact hout x hm
      · simp at hm; subst hm
        rcases htc with h' | h'
        · exact Or.inr (Or.inl h')
        · exact Or.inr (Or.inr h')

/-- The parse loop only ever appends operands, operators and functions to
its output. -/
theorem parseLoop_inv (ts : List Token) :
    ∀ (st out res : List Token), StackOkP st → OutOkP out →
      parseLoop ts st out = .ok res → OutOkP res := by
  induction ts with
  | nil =>
    intro st out res hst hout h
    simp only [parseLoop] at h
    exact drainStack_inv st out res hst hout h
  | cons t ts ih =>
    intro st out res hst hout h
    by_cases h1 : t.isOperand = true
    · simp only [parseLoop, if_pos h1] at h
      refine ih st (out ++ [t]) res hst ?_ h
      intro x hx
      rcases List.mem_append.mp hx with hm | hm
      · exact hout x hm
      · simp at hm; subst hm; exact Or.inl h1
    · simp only [parseLoop, if_neg h1] at h
      by_cases h2 : t.isFunction = true
      · simp only [if_pos h2] at h
        refine ih (t :: st) out res ?_ hout h
        intro x hx
        rcases List.mem_cons.mp hx with hm | hm
        · subst hm; exact Or.inr (Or.inl h2)
        · exact hst x hm
      · simp only [if_neg h2] at h
        by_cases h3 : t.isArgumentSeparator = true
        · simp only [if_pos h3] at h
          obtain ⟨hst', hout'⟩ := popForSeparator_inv st out hst hout
          exact ih _ _ res hst' hout' h
        · simp only [if_neg h3] at h
          by_cases h4 : t.isLeftParenthesis = true
          · simp only [if_pos h4] at h
            refine ih (t :: st) out res ?_ hout h
            intro x hx
            rcases List.mem_cons.mp hx with hm | hm
            · subst hm
              exact Or.inr (Or.inr (isLeftParenthesis_eq_true_iff.mp h4))
            · exact hst x hm
          · simp only [if_neg h4] at h
            by_cases h5 : t.isRightParenthesis = true
            · simp only [if_pos h5] at h
              cases hpr : popForRightParen st out with
              | error e => rw [hpr] at h; simp at h
              | ok p =>
                rw [hpr] at h
                obtain ⟨hst', hout'⟩ :=
                  popForRightParen_inv st out p.1 p.2 hst hout hpr
                exact ih p.1 p.2 res hst' hout' h
            · simp only [if_neg h5] at h
              by_cases h6 : t.isOperator = true
              · simp only [if_pos h6] at h
                obtain ⟨hst', hout'⟩ := popOperators_inv t st out hst hout
                refine ih _ _ res ?_ hout' h
                intro x hx
                rcases List.mem_cons.mp hx with hm | hm
                · subst hm; exact Or.inl h6
                · exact hst' x hm
              · simp only [if_neg h6] at h
                exact ih st out res hst hout h

/-!
## Claim theorems
-/

/-- C1: evaluating the pipeline at the failing input.  Tokenizing `"x = 5"`
on a fresh tokenizer registers `x` and yields `[Variable 0, Assignment,
Integer 5]`; parsing yields `[Variable 0, Integer 5, Assignment]`; but
evaluating with the fresh (empty) slot fails with "variable not
initialized" instead of performing the assignment, because the evaluator
dereferences the assignment's left operand with `to_value`
(RPNEvaluator.cpp:156) before testing for `Assignment`
(RPNEvaluator.cpp:158).  The final conjunct shows the `Assignment` branch
itself does set the slot and push the variable once the left operand is
already initialized, so only the premature dereference breaks the claimed
fresh-variable round trip. -/
theorem assignment_to_fresh_variable_fails :
    tokenize "x = 5" [] =
      .ok ([.Variable 0, .Assignment, .Integer 5], ["x"]) ∧
    parse [.Variable 0, .Assignment, .Integer 5] =
      .ok [.Variable 0, .Integer 5, .Assignment] ∧
    evaluate [.Variable 0, .Integer 5, .Assignment] [none] =
      .error .variableNotInitialized ∧
    evaluate [.Variable 0, .Integer 5, .Assignment] [some (.int 0)] =
      .ok (.Variable 0, [some (.int 5)]) :=
  ⟨rfl, rfl, rfl, rfl⟩

/-- C2: the boolean operators do not reject non-boolean operands with
`EvalError("unsupported operand")`.  `Integer and Integer` raises
`std::bad_variant_access` from `std::get<bool>` (RPNEvaluator.cpp:248),
and `false and Integer` even SUCCEEDS, because `&&` short-circuits before
the right `std::get<bool>` runs.  For genuinely boolean operands the six
operators do compute the claimed boolean functions (`Xor` is `a ≠ b`,
`Xnor` is `a = b`). -/
theorem boolean_operators_nonboolean_behavior :
    (evaluate [.Integer 1, .Integer 2, .And] [] = .error .badVariantAccess) ∧
    (evaluate [.Boolean false, .Integer 2, .And] [] =
      .ok (.Boolean false, [])) ∧
    (∀ a b : Bool,
      evaluate [.Boolean a, .Boolean b, .And] [] =
        .ok (.Boolean (a && b), []) ∧
      evaluate [.Boolean a, .Boolean b, .Or] [] =
        .ok (.Boolean (a || b), []) ∧
      evaluate [.Boolean a, .Boolean b, .Xor] [] =
        .ok (.Boolean (xor a b), []) ∧
      evaluate [.Boolean a, .Boolean b, .Nand] [] =
        .ok (.Boolean (!(a && b)), []) ∧
      evaluate [.Boolean a, .Boolean b, .Nor] [] =
        .ok (.Boolean (!(a || b)), []) ∧
      evaluate [.Boolean a, .Boolean b, .Xnor] [] =
        .ok (.Boolean (a == b), [])) := by
  refine ⟨rfl, rfl, ?_⟩
  intro a b
  cases a <;> cases b <;> exact ⟨rfl, rfl, rfl, rfl, rfl, rfl⟩

/-- C3: whatever token list the tokenizer produces, a successful parse of
it contains no pseudo-token: no left parenthesis, right parenthesis or
argument separator ever reaches the RPN output. -/
theorem parse_output_has_no_pseudo_tokens :
    ∀ (s : String) (vars : List String) (ts : List Token)
      (vars' : List String) (out : List Token),
      tokenize s vars = .ok (ts, vars') → parse ts = .ok out →
      ∀ t ∈ out, t ≠ .LeftParenthesis ∧ t ≠ .RightParenthesis ∧
        t ≠ .ArgumentSeparator := by
  intro s vars ts vars' out _ hparse t ht
  have hout : OutOkP out := by
    refine parseLoop_inv ts [] [] out ?_ ?_ hparse
    · intro x hx; cases hx
    · intro x hx; cases hx
  exact not_pseudo_of_cat (hout t ht)

/-- C3 witness: the theorem applied to the pipeline input `"(1+2)*3"` and
the output element `Addition`. -/
theorem parse_output_has_no_pseudo_tokens_witness :
    Token.Addition ≠ Token.LeftParenthesis ∧
    Token.Addition ≠ Token.RightParenthesis ∧
    Token.Addition ≠ Token.ArgumentSeparator :=
  parse_output_has_no_pseudo_tokens "(1+2)*3" []
    [.LeftParenthesis, .Integer 1, .Addition, .Integer 2, .RightParenthesis,
     .Multiplication, .Integer 3] []
    [.Integer 1, .Integer 2, .Addition, .Integer 3, .Multiplication]
    rfl rfl .Addition (by simp)

/-- C4: a stacked operator `t` is popped before pushing the incoming
operator `o` exactly under the source's loop condition — `prec t > prec o`,
or equal precedence with `o` not right-associative; only `Power` and
`Assignment` are right-associative; and consequently the full pipeline
evaluates `"2 ** 3 ** 2"` to `Integer 512`, i.e. `Power` associates to the
right. -/
theorem operator_pop_condition_and_power_right_assoc :
    (∀ (o t : Token) (rest out : List Token),
      popOperators o (t :: rest) out =
        if t.isOperator = true ∧
            (precedence t > precedence o ∨
              (precedence t = precedence o ∧
                is_right_associative o = false)) then
          popOperators o rest (out ++ [t])
        else (t :: rest, out)) ∧
    (∀ t : Token,
      is_right_associative t = true ↔ (t = .Power ∨ t = .Assignment)) ∧
    (tokenize "2 ** 3 ** 2" [] =
        .ok ([.Integer 2, .Power, .Integer 3, .Power, .Integer 2], []) ∧
      parse [.Integer 2, .Power, .Integer 3, .Power, .Integer 2] =
        .ok [.Integer 2, .Integer 3, .Integer 2, .Power, .Power] ∧
      evaluate [.Integer 2, .Integer 3, .Integer 2, .Power, .Power] [] =
        .ok (.Integer 512, [])) := by
  refine ⟨fun o t rest out => rfl, ?_, rfl, rfl, rfl⟩
  intro t
  cases t <;> simp [is_right_associative]

/-- C5: `Factorial` pops one operand; a dereferenced `Integer` value
`n ≥ 0` yields the integer `n!` (the product `1·2·…·n`, with `0! = 1`); a
negative integer or a non-integer value raises the "unsupported operand"
evaluation error. -/
theorem factorial_semantics :
    ∀ (store : VarStore) (op : Token) (v : Value),
      to_value store op = .ok v →
      (∀ n : Int, v = .int n →
        (0 ≤ n → evaluate [op, .Factorial] store =
            .ok (.Integer (n.toNat.factorial : Int), store)) ∧
        (n < 0 → evaluate [op, .Factorial] store =
            .error .unsupportedOperand)) ∧
      ((∀ n : Int, v ≠ .int n) →
        evaluate [op, .Factorial] store = .error .unsupportedOperand) := by
  intro store op v h
  have hop := to_value_ok_isOperand h
  have hF1 : Token.isOperand .Factorial = false := rfl
  have hF2 : Token.isOperation .Factorial = true := rfl
  have hF3 : Token.isPostfixOperator .Factorial = true := rfl
  constructor
  · rintro n rfl
    constructor
    · intro hn
      have hlt : ¬ n < 0 := by omega
      simp [evaluate, evalLoop, hop, h, hlt, mulUpTo_eq_factorial,
        hF1, hF2, hF3]
    · intro hn
      simp [evaluate, evalLoop, hop, h, hn, hF1, hF2, hF3]
  · intro hne
    cases v with
    | int n => exact absurd rfl (hne n)
    | real r => simp [evaluate, evalLoop, hop, h, hF1, hF2, hF3]
    | bool b => simp [evaluate, evalLoop, hop, h, hF1, hF2, hF3]

/-- C5 witness: `3! = 6`, `(-1)!` and `true!` are unsupported operands. -/
theorem factorial_semantics_witness :
    evaluate [.Integer 3, .Factorial] [] = .ok (.Integer 6, []) ∧
    evaluate [.Integer (-1), .Factorial] [] = .error .unsupportedOperand ∧
    evaluate [.Boolean true, .Factorial] [] = .error .unsupportedOperand := by
  refine ⟨?_, ?_, ?_⟩
  · have h := ((factorial_semantics [] (.Integer 3) (.int 3) rfl).1 3 rfl).1
      (by omega)
    simpa using h
  · exact ((factorial_semantics [] (.Integer (-1)) (.int (-1)) rfl).1 (-1)
      rfl).2 (by omega)
  · exact (factorial_semantics [] (.Boolean true) (.bool true) rfl).2
      (fun n h => Value.noConfusion h)

/-- C8: integer `Power` runs the repeated-multiplication loop `0 ≤ i <
exp`; a negative exponent runs it zero times and pushes `Integer 1`, a
non-negative exponent pushes `Integer (base ^ exp)`. -/
theorem integer_power_negative_exponent_yields_one :
    ∀ (store : VarStore) (b e : Int),
      (e < 0 → evaluate [.Integer b, .Integer e, .Power] store =
          .ok (.Integer 1, store)) ∧
      (0 ≤ e → evaluate [.Integer b, .Integer e, .Power] store =
          .ok (.Integer (b ^ e.toNat), store)) := by
  intro store b e
  have base : evaluate [.Integer b, .Integer e, .Power] store =
      .ok (.Integer (powAcc b e.toNat), store) := rfl
  constructor
  · intro hn
    rw [base, powAcc_eq_pow]
    have h0 : e.toNat = 0 := Int.toNat_eq_zero.mpr (le_of_lt hn)
    simp [h0]
  · intro _
    rw [base, powAcc_eq_pow]

/-- C8 witness: `2 ** (-2) = 1` and `2 ** 3 = 8`. -/
theorem integer_power_negative_exponent_yields_one_witness :
    evaluate [.Integer 2, .Integer (-2), .Power] [] =
      .ok (.Integer 1, []) ∧
    evaluate [.Integer 2, .Integer 3, .Power] [] = .ok (.Integer 8, []) := by
  constructor
  · exact (integer_power_negative_exponent_yields_one [] 2 (-2)).1 (by omega)
  · have h := (integer_power_negative_exponent_yields_one [] 2 3).2 (by omega)
    simpa using h

/-- C9: the unary-operator branch pops and dereferences its operand with
`to_value` before dispatching on the operator kind, so `Identity` on an
uninitialized variable fails with "variable not initialized"; on any
operand whose dereference succeeds, `Identity` pushes back the identical
operand handle (a `Variable` stays the same handle, not its dereferenced
value). -/
theorem identity_dereferences_then_pushes_handle :
    (∀ (id : Nat) (store : VarStore), getSlot store id = none →
      evaluate [.Variable id, .Identity] store =
        .error .variableNotInitialized) ∧
    (∀ (op : Token) (store : VarStore) (v : Value),
      to_value store op = .ok v →
      evaluate [op, .Identity] store = .ok (op, store)) := by
  have hI1 : Token.isOperand .Identity = false := rfl
  have hI2 : Token.isOperation .Identity = true := rfl
  have hI3 : Token.isPostfixOperator .Identity = false := rfl
  have hI4 : Token.isUnaryOperator .Identity = true := rfl
  constructor
  · intro id store h
    have hV : Token.isOperand (.Variable id) = true := rfl
    simp [evaluate, evalLoop, to_value, h, hI1, hI2, hI3, hI4, hV]
  · intro op store v h
    have hop := to_value_ok_isOperand h
    simp [evaluate, evalLoop, hop, h, hI1, hI2, hI3, hI4]

/-- C9 witness: the theorem at an uninitialized variable slot and at a
plain integer operand. -/
theorem identity_dereferences_then_pushes_handle_witness :
    evaluate [.Variable 0, .Identity] [none] =
      .error .variableNotInitialized ∧
    evaluate [.Integer 7, .Identity] [] = .ok (.Integer 7, []) :=
  ⟨identity_dereferences_then_pushes_handle.1 0 [none] rfl,
   identity_dereferences_then_pushes_handle.2 (.Integer 7) [] (.int 7) rfl⟩

/-- C10: a token that is neither an operand nor an operation (i.e. a
pseudo-token, as witnessed by the three final conjuncts) is silently
skipped by the evaluator loop: the operand stack and the store are
untouched and no error is raised for it. -/
theorem evaluator_skips_non_operation_tokens :
    (∀ (t : Token), t.isOperand = false → t.isOperation = false →
      ∀ (ts stack : List Token) (store : VarStore),
        evalLoop (t :: ts) stack store = evalLoop ts stack store) ∧
    (Token.isOperand .LeftParenthesis = false ∧
      Token.isOperation .LeftParenthesis = false) ∧
    (Token.isOperand .RightParenthesis = false ∧
      Token.isOperation .RightParenthesis = false) ∧
    (Token.isOperand .ArgumentSeparator = false ∧
      Token.isOperation .ArgumentSeparator = false) := by
  refine ⟨?_, ⟨rfl, rfl⟩, ⟨rfl, rfl⟩, ⟨rfl, rfl⟩⟩
  intro t h1 h2 ts stack store
  simp [evalLoop, h1, h2]

/-- C10 witness: the theorem applied to a left parenthesis amid an
evaluation. -/
theorem evaluator_skips_non_operation_tokens_witness :
    evalLoop [.LeftParenthesis] [.Integer 1] [] =
      evalLoop [] [.Integer 1] [] :=
  evaluator_skips_non_operation_tokens.1 .LeftParenthesis rfl rfl
    [] [.Integer 1] []

/-- Splitting `takeWhile`/`dropWhile` at the first failing element. -/
theorem takeWhile_dropWhile_append_not (p : Char → Bool) (ds : List Char)
    (x : Char) (r : List Char) (h : ∀ c ∈ ds, p c = true)
    (hx : p x = false) :
    (ds ++ x :: r).takeWhile p = ds ∧ (ds ++ x :: r).dropWhile p = x :: r := by
  induction ds with
  | nil => simp [List.takeWhile_cons, List.dropWhile_cons, hx]
  | cons d tail ih =>
    have hd : p d = true := h d (by simp)
    have htail := ih (fun c hc => h c (by simp [hc]))
    simp [List.takeWhile_cons, List.dropWhile_cons, hd, htail.1, htail.2]

/-- C6 counterexample: scanning `"1."` fails with the `XTokenizer` error
kind (offset 2, the position after the `.`), and NOT with the
`XBadCharacter` kind the claim asserts. -/
theorem trailing_dot_raises_tokenizer_kind :
    tokenize "1." [] =
      .error (.tokenizerErr 2 "Tokenizer::Bad character in expression.") ∧
    resultIsBadCharacter (tokenize "1." []) = false :=
  ⟨rfl, rfl⟩

/-- C6 amended: a numeric literal of digits followed by `.` with no digit
after the `.` makes `_get_number` fail with the `Tokenizer` error kind
(`XTokenizer`, carrying the offset just past the `.` and the message
"Tokenizer::Bad character in expression."), not with `BadCharacter`. -/
theorem trailing_dot_error_is_tokenizer_err :
    ∀ (first : Char) (ds rest : List Char) (pos : Nat),
      (∀ c ∈ ds, isDigitC c = true) →
      (∀ c, rest.head? = some c → isDigitC c = false) →
      getNumber first (ds ++ '.' :: rest) pos =
        .error (.tokenizerErr (pos + ds.length + 2)
          "Tokenizer::Bad character in expression.") := by
  intro first ds rest pos hds hrest
  obtain ⟨htake, hdrop⟩ :=
    takeWhile_dropWhile_append_not isDigitC ds '.' rest hds (by decide)
  have harith : pos + (first :: ds).length + 1 = pos + ds.length + 2 := by
    simp [List.length_cons]
    omega
  cases rest with
  | nil =>
    simp only [getNumber, htake, hdrop]
    simp
    omega
  | cons c2 r2 =>
    have hc2 : isDigitC c2 = false := hrest c2 rfl
    simp only [getNumber, htake, hdrop]
    simp [hc2]
    omega

/-- C6 amended witness: the amended theorem at the literal `"1."`. -/
theorem trailing_dot_error_is_tokenizer_err_witness :
    getNumber '1' ['.'] 0 =
      .error (.tokenizerErr 2 "Tokenizer::Bad character in expression.") :=
  trailing_dot_error_is_tokenizer_err '1' [] [] 0 (by simp) (by simp)

/-- C7: scanning `+` emits `Addition` exactly when the previous category is
`Operand`, `PostfixOp` or `RightParenthesis` and `Identity` otherwise;
likewise `-` emits `Subtraction` / `Negation`; whitespace advances the scan
without touching the previous category; and a fresh `tokenize` starts in
category `Start`. -/
theorem plus_minus_context_sensitivity :
    (∀ (fuel : Nat) (cs : List Char) (pos : Nat) (prev : PrevCategory)
        (vars : List String) (acc : List Token),
      tokLoop (fuel + 1) ('+' :: cs) pos prev vars acc =
        tokLoop fuel cs (pos + 1) .Other vars
          (acc ++ [if prev = .Operand ∨ prev = .PostfixOp ∨
              prev = .RightParenthesis then Token.Addition
            else Token.Identity])) ∧
    (∀ (fuel : Nat) (cs : List Char) (pos : Nat) (prev : PrevCategory)
        (vars : List String) (acc : List Token),
      tokLoop (fuel + 1) ('-' :: cs) pos prev vars acc =
        tokLoop fuel cs (pos + 1) .Other vars
          (acc ++ [if prev = .Operand ∨ prev = .PostfixOp ∨
              prev = .RightParenthesis then Token.Subtraction
            else Token.Negation])) ∧
    (∀ (fuel : Nat) (c : Char) (cs : List Char) (pos : Nat)
        (prev : PrevCategory) (vars : List String) (acc : List Token),
      isSpaceC c = true →
      tokLoop (fuel + 1) (c :: cs) pos prev vars acc =
        tokLoop fuel cs (pos + 1) prev vars acc) ∧
    (∀ (s : String) (vars : List String),
      tokenize s vars = tokLoop s.data.length s.data 0 .Start vars []) := by
  refine ⟨?_, ?_, ?_, fun s vars => rfl⟩
  · intro fuel cs pos prev vars acc
    cases prev <;> rfl
  · intro fuel cs pos prev vars acc
    cases prev <;> rfl
  · intro fuel c cs pos prev vars acc h
    have hc : c = ' ' ∨ c = '\t' ∨ c = '\n' ∨ c = '\x0B' ∨ c = '\x0C' ∨
        c = '\r' := by
      have h2 := h
      simp [isSpaceC] at h2
      tauto
    rcases hc with rfl | rfl | rfl | rfl | rfl | rfl <;> rfl

/-- C7 witness: the theorem at concrete inputs — a leading `+` after
`Start` is `Identity`, a `+` after an operand is `Addition`, and a space is
skipped with the category kept. -/
theorem plus_minus_context_sensitivity_witness :
    tokLoop 1 ['+'] 0 .Start [] [] =
      tokLoop 0 [] 1 .Other [] [.Identity] ∧
    tokLoop 1 ['+'] 0 .Operand [] [] =
      tokLoop 0 [] 1 .Other [] [.Addition] ∧
    tokLoop 1 [' ', '+'] 0 .Operand [] [] =
      tokLoop 0 ['+'] 1 .Operand [] [] := by
  refine ⟨?_, ?_, ?_⟩
  · have h := plus_minus_context_sensitivity.1 0 [] 0 .Start [] []
    simpa using h
  · have h := plus_minus_context_sensitivity.1 0 [] 0 .Operand [] []
    simpa using h
  · exact plus_minus_context_sensitivity.2.2.1 0 ' ' ['+'] 0 .Operand [] []
      rfl
